import Mathlib

/-!
Verification of the link-extraction and pattern-deduplication logic of the
scraping MCP server (src/server.py).  The Python functions are embedded as
executable Lean definitions: pure string manipulation becomes functions on
String (backed by List Char so that every definition is structurally
recursive and kernel-evaluable), fallible code (the urllib parser can raise
ValueError on bracket-mismatched hosts) returns Except, and the network is
abstracted as an explicit fetch outcome passed to the tool entry point.
-/

set_option maxRecDepth 8192

/-! ## Python string primitives

Models of the CPython string operations used by server.py, written on the
underlying character lists.  Python indexes and slices strings by code
point, which coincides with List Char indexing.
-/

/-- Python str.strip with a single strip character: removes every leading and
trailing occurrence of the character. -/
def stripCharL (c : Char) (l : List Char) : List Char :=
  ((l.dropWhile (fun a => a = c)).reverse.dropWhile (fun a => a = c)).reverse

/-- Python s.strip(c) on strings. -/
def pyStrip (c : Char) (s : String) : String := ⟨stripCharL c s.data⟩

/-- Python str.split with a single separator character; an empty input yields
a single empty field, matching CPython. -/
def splitCharL (c : Char) : List Char → List (List Char)
  | [] => [[]]
  | a :: as =>
    if a = c then [] :: splitCharL c as
    else
      match splitCharL c as with
      | [] => [[a]]
      | s :: ss => (a :: s) :: ss

/-- Python s.split(c) on strings. -/
def pySplit (c : Char) (s : String) : List String := (splitCharL c s.data).map String.mk

/-- Python c.join(parts) for a one-character separator. -/
def joinCharL (c : Char) : List (List Char) → List Char
  | [] => []
  | [s] => s
  | s :: ss => s ++ c :: joinCharL c ss

/-- Python c.join(parts) on strings. -/
def pyJoin (c : Char) (parts : List String) : String := ⟨joinCharL c (parts.map String.data)⟩

/-- Python s.startswith(p). -/
def pyStartsWith (s p : String) : Bool := p.data.isPrefixOf s.data

/-- Python s.endswith(p). -/
def pyEndsWith (s p : String) : Bool := p.data.isSuffixOf s.data

/-- Python s[n:] (slicing by code points). -/
def pyDropChars (s : String) (n : Nat) : String := ⟨s.data.drop n⟩

/-- Python len(s) in code points. -/
def pyLen (s : String) : Nat := s.data.length

/-- Python s.lower(); the inputs of interest are ASCII, where Char.toLower
agrees with CPython. -/
def pyLower (s : String) : String := ⟨s.data.map Char.toLower⟩

/-- Python (c in s) for a single character. -/
def pyContainsChar (c : Char) (s : String) : Bool := s.data.contains c

/-! ## Model of urllib.parse

server.py imports urlparse and urljoin from urllib.parse.  The definitions
below follow the CPython implementation (urlsplit, _splitnetloc,
_splitparams, urlunsplit, urlunparse, urljoin).  CPython details not
exercised by this repository are out of the model: stripping of leading and
trailing control characters, removal of embedded tab and newline
characters, and version-specific validation of the inside of a bracketed
IPv6 host.  The ValueError raised on a netloc containing a mismatched
square bracket is modelled as an Except.error, since server.py relies on
catching it.
-/

/-- The result of urlsplit: scheme, netloc, path, query, fragment. -/
structure SplitResult where
  scheme : String
  netloc : String
  path : String
  query : String
  fragment : String
deriving DecidableEq

/-- The result of urlparse: scheme, netloc, path, params, query, fragment. -/
structure ParseResult where
  scheme : String
  netloc : String
  path : String
  params : String
  query : String
  fragment : String
deriving DecidableEq

/-- CPython scheme_chars: letters, digits, plus, minus, dot. -/
def isSchemeChar (c : Char) : Bool := c.isAlpha || c.isDigit || c = '+' || c = '-' || c = '.'

/-- Split a character list at the first occurrence of a character, returning
the parts before and after it, or none when the character is absent
(Python str.find plus slicing). -/
def breakAtChar (c : Char) : List Char → Option (List Char × List Char)
  | [] => none
  | a :: as =>
    if a = c then some ([], as)
    else
      match breakAtChar c as with
      | none => none
      | some (pre, post) => some (a :: pre, post)

/-- Split a character list at the last occurrence of a character
(Python str.rfind plus slicing). -/
def breakAtLastChar (c : Char) (l : List Char) : Option (List Char × List Char) :=
  match breakAtChar c l.reverse with
  | some (rsuf, rpre) => some (rpre.reverse, rsuf.reverse)
  | none => none

/-- CPython urlsplit: extract the scheme (when the text before the first
colon is a nonempty run of scheme characters starting with a letter), the
netloc (after a leading double slash, up to the next slash, question mark
or hash), then the fragment and the query.  Raises (returns Except.error)
on a netloc with a mismatched square bracket. -/
def urlsplitE (url : String) (scheme0 : String) : Except String SplitResult :=
  let cs := url.data
  let sr : String × List Char :=
    match breakAtChar ':' cs with
    | some (before, after) =>
      if 0 < before.length ∧ (before.headD ' ').isAlpha ∧ before.all isSchemeChar then
        (pyLower ⟨before⟩, after)
      else (scheme0, cs)
    | none => (scheme0, cs)
  let nr : List Char × List Char :=
    match sr.2 with
    | '/' :: '/' :: r =>
      let nl := r.takeWhile (fun a => ¬ (a = '/' ∨ a = '?' ∨ a = '#'))
      (nl, r.drop nl.length)
    | rest => ([], rest)
  if ('[' ∈ nr.1 ∧ ']' ∉ nr.1) ∨ (']' ∈ nr.1 ∧ '[' ∉ nr.1) then
    Except.error "Invalid IPv6 URL"
  else
    let fr : List Char × List Char :=
      match breakAtChar '#' nr.2 with
      | some (b, f) => (b, f)
      | none => (nr.2, [])
    let pq : List Char × List Char :=
      match breakAtChar '?' fr.1 with
      | some (p, q) => (p, q)
      | none => (fr.1, [])
    Except.ok ⟨sr.1, ⟨nr.1⟩, ⟨pq.1⟩, ⟨pq.2⟩, ⟨fr.2⟩⟩

/-- CPython _splitparams: split path parameters after the last semicolon of
the final path segment. -/
def splitparamsL (path : List Char) : List Char × List Char :=
  if '/' ∈ path then
    match breakAtLastChar '/' path with
    | some (before, seg) =>
      match breakAtChar ';' seg with
      | some (a, b) => (before ++ '/' :: a, b)
      | none => (path, [])
    | none => (path, [])
  else
    match breakAtChar ';' path with
    | some (a, b) => (a, b)
    | none => (path, [])

/-- CPython uses_params. -/
def uses_params : List String :=
  ["", "ftp", "hdl", "prospero", "http", "imap", "https", "shttp", "rtsp",
   "rtspu", "sip", "sips", "mms", "sftp", "tel"]

/-- CPython urlparse: urlsplit followed by path-parameter splitting for the
schemes that use them. -/
def urlparseE (url : String) (scheme0 : String := "") : Except String ParseResult :=
  match urlsplitE url scheme0 with
  | Except.error e => Except.error e
  | Except.ok s =>
    if s.scheme ∈ uses_params ∧ pyContainsChar ';' s.path then
      let pp := splitparamsL s.path.data
      Except.ok ⟨s.scheme, s.netloc, ⟨pp.1⟩, ⟨pp.2⟩, s.query, s.fragment⟩
    else
      Except.ok ⟨s.scheme, s.netloc, s.path, "", s.query, s.fragment⟩

/-- CPython urlunsplit. -/
def urlunsplit (scheme netloc path query fragment : String) : String :=
  let u1 :=
    if netloc ≠ "" ∨ pyStartsWith path "//" then
      "//" ++ netloc ++ (if path ≠ "" ∧ ¬ pyStartsWith path "/" then "/" ++ path else path)
    else path
  let u2 := if scheme ≠ "" then scheme ++ ":" ++ u1 else u1
  let u3 := if query ≠ "" then u2 ++ "?" ++ query else u2
  if fragment ≠ "" then u3 ++ "#" ++ fragment else u3

/-- CPython urlunparse. -/
def urlunparse (r : ParseResult) : String :=
  let p := if r.params ≠ "" then r.path ++ ";" ++ r.params else r.path
  urlunsplit r.scheme r.netloc p r.query r.fragment

/-- CPython uses_relative. -/
def uses_relative : List String :=
  ["", "ftp", "http", "gopher", "nntp", "imap", "wais", "file", "https",
   "shttp", "mms", "prospero", "rtsp", "rtspu", "sftp", "svn", "svn+ssh",
   "ws", "wss"]

/-- CPython uses_netloc. -/
def uses_netloc : List String :=
  ["", "ftp", "http", "gopher", "nntp", "telnet", "imap", "wais", "file",
   "mms", "https", "shttp", "snews", "prospero", "rtsp", "rtspu", "rsync",
   "svn", "svn+ssh", "sftp", "nfs", "git", "git+ssh", "ws", "wss",
   "itms-services"]

/-- CPython urljoin segment list fixup: segments[1:-1] = filter(None, segments[1:-1]). -/
def filterMiddle : List String → List String
  | [] => []
  | [s] => [s]
  | s :: ss => s :: ((ss.dropLast.filter (fun a => decide (a ≠ ""))) ++ [ss.getLastD ""])

/-- CPython urljoin dot-segment resolution loop; popping an empty stack is a
no-op, matching the swallowed IndexError. -/
def resolveSegments (acc : List String) : List String → List String
  | [] => acc
  | seg :: rest =>
    if seg = ".." then resolveSegments acc.dropLast rest
    else if seg = "." then resolveSegments acc rest
    else resolveSegments (acc ++ [seg]) rest

/-- CPython urljoin.  Propagates the parse error of either argument, as the
Python function lets the ValueError escape. -/
def urljoinE (base url : String) : Except String String :=
  if base = "" then Except.ok url
  else if url = "" then Except.ok base
  else
    match urlparseE base "" with
    | Except.error e => Except.error e
    | Except.ok b =>
      match urlparseE url b.scheme with
      | Except.error e => Except.error e
      | Except.ok u =>
        if u.scheme ≠ b.scheme ∨ u.scheme ∉ uses_relative then Except.ok url
        else if u.scheme ∈ uses_netloc ∧ u.netloc ≠ "" then
          Except.ok (urlunparse u)
        else
          let netloc := if u.scheme ∈ uses_netloc then b.netloc else u.netloc
          if u.path = "" ∧ u.params = "" then
            let q := if u.query = "" then b.query else u.query
            Except.ok (urlunparse ⟨u.scheme, netloc, b.path, b.params, q, u.fragment⟩)
          else
            let base_parts0 := pySplit '/' b.path
            let base_parts :=
              if base_parts0.getLastD "" ≠ "" then base_parts0.dropLast else base_parts0
            let segments :=
              if pyStartsWith u.path "/" then pySplit '/' u.path
              else filterMiddle (base_parts ++ pySplit '/' u.path)
            let resolved0 := resolveSegments [] segments
            let lastSeg := segments.getLastD ""
            let resolved := if lastSeg = "." ∨ lastSeg = ".." then resolved0 ++ [""] else resolved0
            let joined := pyJoin '/' resolved
            let newPath := if joined = "" then "/" else joined
            Except.ok (urlunparse ⟨u.scheme, netloc, newPath, u.params, u.query, u.fragment⟩)

/-! ## Data model

A link record as produced by extract_site_links: a dict with keys text and
url (content_headings is attached later, giving EnrichedLink).  An anchor
is an a-element of the page restricted to the data the extractor reads:
its stripped visible text and its href attribute.  A page document is the
parsed DOM restricted to what the tool consumes: the identified header,
footer and independent nav regions (each a list of anchors in document
order) and the h2 and h3 heading texts.  The network is abstracted as a
FetchResult: either a raised exception or a response with an HTTP status
and a parsed page.
-/

structure Anchor where
  text : String
  href : String
deriving DecidableEq

structure Link where
  text : String
  url : String
deriving DecidableEq

instance : Inhabited Link := ⟨⟨"", ""⟩⟩

structure EnrichedLink where
  text : String
  url : String
  content_headings : List String
deriving DecidableEq

structure PageDoc where
  headerRegion : Option (List Anchor)
  footerRegion : Option (List Anchor)
  navRegions : List (List Anchor)
  h2s : List String
  h3s : List String

inductive FetchResult where
  | exn (msg : String)
  | resp (status : Nat) (page : PageDoc)

/-- The JSON payload returned by the extract_site_links tool: either the
error object json.dumps({error, base_url, links}) or the success object
json.dumps({base_url, total_links, filtered_links, links, sections}). -/
inductive ToolResult where
  | errorResult (error : String) (base_url : String) (links : List EnrichedLink)
  | okResult (base_url : String) (total_links : Nat) (filtered_count : Nat)
      (links : List EnrichedLink) (header_count footer_count nav_count : Nat)
deriving DecidableEq

/-! ## extract_site_links pipeline (server.py lines 875 to 1035)

Each inner function of the tool becomes a top-level definition,
parameterised by the data the Python closure captured (the tool url).
-/

/-- Loop body of extract_links_from_element in extract_site_links
(server.py line 875): for every anchor, resolve the href against the page
url with urljoin, then keep the link only when the visible text is
nonempty.  No href scheme is skipped here.  A ValueError escaping urljoin
propagates. -/
def extractLinksList (pageUrl : String) : List Anchor → Except String (List Link)
  | [] => Except.ok []
  | a :: rest =>
    match urljoinE pageUrl a.href with
    | Except.error e => Except.error e
    | Except.ok absolute =>
      match extractLinksList pageUrl rest with
      | Except.error e => Except.error e
      | Except.ok tail =>
        if a.text ≠ "" then Except.ok (⟨a.text, absolute⟩ :: tail) else Except.ok tail

/-- extract_links_from_element of extract_site_links (server.py line 875):
returns the empty list on a missing region. -/
def extract_links_from_element (pageUrl : String) (element : Option (List Anchor)) :
    Except String (List Link) :=
  match element with
  | none => Except.ok []
  | some anchors => extractLinksList pageUrl anchors

/-- The href prefixes skipped by the playwright variant
(server.py line 1198): tel:, mailto:, javascript:, and fragment-only #. -/
def scheme_skip (href : String) : Bool :=
  pyStartsWith href "tel:" || pyStartsWith href "mailto:" ||
    pyStartsWith href "javascript:" || pyStartsWith href "#"

/-- Loop body of extract_links_from_element in
extract_site_links_with_playwright (server.py line 1190): identical to the
plain variant except that anchors whose href starts with tel:, mailto:,
javascript: or # are skipped before resolution. -/
def extractLinksListPW (pageUrl : String) : List Anchor → Except String (List Link)
  | [] => Except.ok []
  | a :: rest =>
    if scheme_skip a.href then extractLinksListPW pageUrl rest
    else
      match urljoinE pageUrl a.href with
      | Except.error e => Except.error e
      | Except.ok absolute =>
        match extractLinksListPW pageUrl rest with
        | Except.error e => Except.error e
        | Except.ok tail =>
          if a.text ≠ "" then Except.ok (⟨a.text, absolute⟩ :: tail) else Except.ok tail

/-- extract_links_from_element of extract_site_links_with_playwright
(server.py line 1190). -/
def extract_links_from_element_pw (pageUrl : String) (element : Option (List Anchor)) :
    Except String (List Link) :=
  match element with
  | none => Except.ok []
  | some anchors => extractLinksListPW pageUrl anchors

/-- The nav_links accumulation loop (server.py line 898): extend nav_links
with the links of every independent nav region in order. -/
def navLinksList (pageUrl : String) : List (List Anchor) → Except String (List Link)
  | [] => Except.ok []
  | nav :: rest =>
    match extract_links_from_element pageUrl (some nav) with
    | Except.error e => Except.error e
    | Except.ok ls =>
      match navLinksList pageUrl rest with
      | Except.error e => Except.error e
      | Except.ok more => Except.ok (ls ++ more)

/-- The merge loop of extract_site_links (server.py line 952): walk the
concatenation of header, footer and nav links, keep a link when its url
has not been seen, and record the url as seen.  The Python seen set is
modelled as a list with membership. -/
def mergeLoop (seen : List String) (acc : List Link) : List Link → List Link
  | [] => acc
  | l :: ls =>
    if l.url ∈ seen then mergeLoop seen acc ls
    else mergeLoop (l.url :: seen) (acc ++ [l]) ls

/-- all_links of extract_site_links (server.py line 952): iterating over
[header_links, footer_links, nav_links] element by element is iteration
over their concatenation.  The playwright tool (line 1273) runs the same
code. -/
def merge_links (header_links footer_links nav_links : List Link) : List Link :=
  mergeLoop [] [] (header_links ++ footer_links ++ nav_links)

/-- extract_url_pattern (server.py line 903, identical at line 1186 and in
src/reference.py line 92): parse the url and the base url; strip slashes
from both paths; when the base path is nonempty and is a character prefix
of the full path, drop that many characters and strip slashes again;
a nonempty remainder with at least two slash-separated parts yields the
wildcard pattern, otherwise the parsed path is returned; any parse error
yields the raw url. -/
def extract_url_pattern (url : String) (base_url : String) : String :=
  match urlparseE url, urlparseE base_url with
  | Except.ok parsed, Except.ok base_parsed =>
    let base_path := pyStrip '/' base_parsed.path
    let full_path := pyStrip '/' parsed.path
    let relative_path :=
      if base_path ≠ "" ∧ pyStartsWith full_path base_path then
        pyStrip '/' (pyDropChars full_path (pyLen base_path))
      else full_path
    if relative_path ≠ "" then
      let parts := pySplit '/' relative_path
      if 2 ≤ parts.length then
        "/" ++ pyJoin '/' (parts.dropLast ++ ["*"]) ++ "/"
      else parsed.path
    else parsed.path
  | _, _ => url

/-- The number of links of the list whose computed pattern is p.  The
Python code builds the same counts incrementally in the pattern_counts
dict of detect_repeated_patterns (server.py line 929). -/
def pattern_counts (links : List Link) (base_url p : String) : Nat :=
  (links.filter (fun l => decide (extract_url_pattern l.url base_url = p))).length

/-- detect_repeated_patterns (server.py line 929): the set of urls whose
pattern occurs at least threshold times across the list, here as the list
of such urls (membership agrees with the Python set because the pattern of
a url is deterministic). -/
def detect_repeated_patterns (links : List Link) (threshold : Nat) (base_url : String) :
    List String :=
  (links.map Link.url).filter
    (fun u => decide (threshold ≤ pattern_counts links base_url (extract_url_pattern u base_url)))

/-- filtered_links (server.py line 963): drop every link whose url is in
the excluded set. -/
def filtered_links (links : List Link) (threshold : Nat) (base_url : String) : List Link :=
  links.filter (fun l => decide (l.url ∉ detect_repeated_patterns links threshold base_url))

/-- The first-seen dedup loop of extract_headings (server.py line 971). -/
def dedupStringsLoop (seen : List String) (acc : List String) : List String → List String
  | [] => acc
  | s :: ss =>
    if s ∈ seen then dedupStringsLoop seen acc ss
    else dedupStringsLoop (s :: seen) (acc ++ [s]) ss

/-- extract_headings (server.py line 966): nonempty h2 texts then nonempty
h3 texts, deduplicated in first-seen order, capped at 100. -/
def extract_headings (h2s h3s : List String) : List String :=
  let merged := h2s.filter (fun s => decide (s ≠ "")) ++ h3s.filter (fun s => decide (s ≠ ""))
  (dedupStringsLoop [] [] merged).take 100

/-- fetch_headings_for_url (server.py line 981) as a function of the fetch
outcome for the target url: an exception or a non-200 status yields the
empty heading list, a 200 response yields the headings of the page. -/
def fetch_headings_model (r : FetchResult) : List String :=
  match r with
  | FetchResult.exn _ => []
  | FetchResult.resp status page =>
    if status ≠ 200 then [] else extract_headings page.h2s page.h3s

/-- base_domain (server.py line 996): the netloc of the tool url, with any
port removed and lowercased.  The parse error propagates to the outer
handler of the tool. -/
def base_domain (url : String) : Except String String :=
  match urlparseE url with
  | Except.error e => Except.error e
  | Except.ok p => Except.ok (pyLower ((pySplit ':' p.netloc).headD ""))

/-- is_same_domain (server.py line 997): the target netloc (port removed,
lowercased) equals the base domain or ends in dot plus the base domain;
any parse failure makes the predicate false. -/
def is_same_domain (bd : String) (target : String) : Bool :=
  match urlparseE target with
  | Except.error _ => false
  | Except.ok p =>
    let netloc := pyLower ((pySplit ':' p.netloc).headD "")
    decide (netloc = bd) || pyEndsWith netloc ("." ++ bd)

/-- The eligible_indices comprehension (server.py line 1010):
[i for i, l in enumerate(filtered_links) if is_same_domain(l.url)], before
the cap.  The counter mirrors enumerate. -/
def eligibleAux (bd : String) : Nat → List Link → List Nat
  | _, [] => []
  | i, l :: ls =>
    if is_same_domain bd l.url then i :: eligibleAux bd (i + 1) ls
    else eligibleAux bd (i + 1) ls

/-- eligible_indices with the [:max_fetch] cap, max_fetch = 20. -/
def eligible_indices (links : List Link) (bd : String) : List Nat :=
  (eligibleAux bd 0 links).take 20

/-- The enrichment stage (server.py lines 1010 to 1025): fetch headings for
each eligible index, write each result back at its index (the Python code
stores content_headings into filtered_links[idx]), then give every link
without the key the empty list.  The per-index state starts as none (key
absent) and becomes some headings when a task result is applied. -/
def enrich_links (links : List Link) (bd : String) (oracle : String → FetchResult) :
    List EnrichedLink :=
  let elig := eligible_indices links bd
  let results := elig.map (fun i => (i, fetch_headings_model (oracle (links.getD i default).url)))
  let st0 : List (Option (List String)) := links.map (fun _ => none)
  let st := results.foldl (fun s r => s.set r.1 (some r.2)) st0
  (links.zip st).map (fun p => ⟨p.1.text, p.1.url, p.2.getD []⟩)

/-- The extract_site_links tool (server.py line 806): on a fetch exception
or a non-200 status, the structured error payload; otherwise the full
pipeline, with any ValueError of the body caught by the outer handler and
converted to the same payload shape. -/
def extract_site_links (url : String) (fetch : FetchResult)
    (oracle : String → FetchResult) : ToolResult :=
  match fetch with
  | FetchResult.exn e => ToolResult.errorResult e url []
  | FetchResult.resp status page =>
    if status ≠ 200 then
      ToolResult.errorResult ("Failed to fetch page: " ++ toString status) url []
    else
      match extract_links_from_element url page.headerRegion with
      | Except.error e => ToolResult.errorResult e url []
      | Except.ok header_links =>
        match extract_links_from_element url page.footerRegion with
        | Except.error e => ToolResult.errorResult e url []
        | Except.ok footer_links =>
          match navLinksList url page.navRegions with
          | Except.error e => ToolResult.errorResult e url []
          | Except.ok nav_links =>
            let all_links := merge_links header_links footer_links nav_links
            let filtered := filtered_links all_links 10 url
            match base_domain url with
            | Except.error e => ToolResult.errorResult e url []
            | Except.ok bd =>
              let enriched := enrich_links filtered bd oracle
              ToolResult.okResult url all_links.length filtered.length enriched
                header_links.length footer_links.length nav_links.length

/-! ## Specification-side definitions -/

/-- Spec wording of step 3 (merge preserving first-seen order): keep each
entry, removing later entries carrying the same url. -/
def firstOccurrences : List Link → List Link
  | [] => []
  | l :: ls => l :: (firstOccurrences ls).filter (fun x => decide (x.url ≠ l.url))

/-- Spec wording of step 4, for the refinement comparison with
extract_url_pattern: take the path of the url, strip any prefix matching
the path of the base url, split the remainder into segments; with at least
two segments the last one is replaced by a wildcard and the segments are
rejoined with slashes; otherwise the pattern is the raw path.  A parse
failure falls back to the raw url. -/
def pattern_per_spec (url base_url : String) : String :=
  match urlparseE url, urlparseE base_url with
  | Except.ok pu, Except.ok pb =>
    let path := pyStrip '/' pu.path
    let bpath := pyStrip '/' pb.path
    let remainder :=
      if bpath ≠ "" ∧ pyStartsWith path bpath then
        pyStrip '/' (pyDropChars path (pyLen bpath))
      else path
    let segments := if remainder = "" then ([] : List String) else pySplit '/' remainder
    if 2 ≤ segments.length then
      "/" ++ pyJoin '/' (segments.dropLast ++ ["*"]) ++ "/"
    else pu.path
  | _, _ => url

/-! ## Helper lemmas -/

/-- The playwright extractor loop equals the plain extractor loop run on the
anchors that survive the scheme filter. -/
theorem extractLinksListPW_eq_filter (pageUrl : String) (as : List Anchor) :
    extractLinksListPW pageUrl as =
      extractLinksList pageUrl (as.filter (fun a => !scheme_skip a.href)) := by
  induction as with
  | nil => rfl
  | cons a rest ih =>
    by_cases hs : scheme_skip a.href = true
    · simp [extractLinksListPW, List.filter_cons, hs, ih]
    · simp only [Bool.not_eq_true] at hs
      simp [extractLinksListPW, extractLinksList, List.filter_cons, hs, ih]

/-! ## Claim theorems -/

/-- Claim C4, counterexample: in extract_site_links (the non-playwright
tool), an anchor with href mailto:a@b.com and visible text Email IS
included in the extracted links, refuting the claim that both tools skip
such anchors. -/
theorem c4_counterexample :
    extract_links_from_element "https://example.com/page"
        (some [⟨"Email", "mailto:a@b.com"⟩]) =
      Except.ok [⟨"Email", "mailto:a@b.com"⟩] := rfl

/-- Claim C4, amended: only extract_site_links_with_playwright skips
anchors whose href starts with tel:, mailto:, javascript: or #; its
extractor equals the plain extract_site_links extractor applied to the
scheme-filtered anchors, while the plain extractor applies no scheme
filter (see the counterexample). -/
theorem c4_scheme_filter_amended (pageUrl : String) (element : Option (List Anchor)) :
    extract_links_from_element_pw pageUrl element =
      extract_links_from_element pageUrl
        (element.map (fun anchors => anchors.filter (fun a => !scheme_skip a.href))) := by
  cases element with
  | none => rfl
  | some anchors => exact extractLinksListPW_eq_filter pageUrl anchors

/-- Claim C6: when the page fetch raises or the response status is not
200, extract_site_links returns the structured payload with the keys
error, base_url and links, the links list empty; no exception escapes
(the embedding is a total function into ToolResult). -/
theorem c6_error_payload (url e : String) (status : Nat) (page : PageDoc)
    (oracle : String → FetchResult) :
    extract_site_links url (FetchResult.exn e) oracle = ToolResult.errorResult e url [] ∧
    (status ≠ 200 →
      extract_site_links url (FetchResult.resp status page) oracle =
        ToolResult.errorResult ("Failed to fetch page: " ++ toString status) url []) := by
  refine ⟨rfl, fun h => ?_⟩
  simp only [extract_site_links]
  rw [if_pos h]

/-- Witness for C6 at a concrete 404 response. -/
theorem c6_error_payload_witness :
    extract_site_links "https://example.com"
        (FetchResult.resp 404 ⟨none, none, [], [], []⟩) (fun _ => FetchResult.exn "x") =
      ToolResult.errorResult ("Failed to fetch page: " ++ toString 404) "https://example.com" [] :=
  (c6_error_payload "https://example.com" "" 404 ⟨none, none, [], [], []⟩
    (fun _ => FetchResult.exn "x")).2 (by decide)

/-- Claim C7: for the same-domain predicate of the enrichment stage, with
base domain example.com (computed from the tool url), the host
sub.example.com is same-domain and notexample.com is not; accordingly only
the sub.example.com link is selected for heading enrichment. -/
theorem c7_same_domain :
    base_domain "https://example.com" = Except.ok "example.com" ∧
    is_same_domain "example.com" "https://sub.example.com/page" = true ∧
    is_same_domain "example.com" "https://notexample.com/page" = false ∧
    eligible_indices
        [⟨"news", "https://sub.example.com/page"⟩, ⟨"ext", "https://notexample.com/page"⟩]
        "example.com" = [0] :=
  ⟨rfl, rfl, rfl, rfl⟩

/-- Claim C8: when url parsing fails inside pattern computation (the
urllib parser raises, modelled as Except.error, for example on a
mismatched bracket in the host), extract_url_pattern returns the raw url
string itself; the embedding is a total function, so no failure aborts a
batch of pattern computations. -/
theorem c8_parse_failure_fallback (url base_url : String)
    (h : (∃ e, urlparseE url = Except.error e) ∨ (∃ e, urlparseE base_url = Except.error e)) :
    extract_url_pattern url base_url = url := by
  unfold extract_url_pattern
  rcases h with ⟨e, he⟩ | ⟨e, he⟩
  · rw [he]
  · rw [he]
    cases hu : urlparseE url <;> rfl

/-- Witness for C8 at the concrete unparsable input http://[::1. -/
theorem c8_parse_failure_fallback_witness :
    extract_url_pattern "http://[::1" "https://example.com" = "http://[::1" :=
  c8_parse_failure_fallback "http://[::1" "https://example.com"
    (Or.inl ⟨"Invalid IPv6 URL", rfl⟩)

/-- Claim C1: over a deduplicated link list, a link survives into
filtered_links exactly by the threshold rule: every link whose pattern is
shared by at least 10 links is excluded, and a link whose pattern is
shared by fewer than 10 links is never excluded on account of that
pattern. -/
theorem c1_threshold_filtering (links : List Link) (base_url p : String)
    (_hnd : (links.map Link.url).Nodup) :
    (10 ≤ pattern_counts links base_url p →
      ∀ l ∈ links, extract_url_pattern l.url base_url = p →
        l ∉ filtered_links links 10 base_url) ∧
    (pattern_counts links base_url p < 10 →
      ∀ l ∈ links, extract_url_pattern l.url base_url = p →
        l ∈ filtered_links links 10 base_url) := by
  constructor
  · intro h10 l hl hp hmem
    rw [filtered_links, List.mem_filter] at hmem
    have hni := hmem.2
    simp only [decide_eq_true_eq] at hni
    apply hni
    rw [detect_repeated_patterns, List.mem_filter]
    refine ⟨List.mem_map_of_mem Link.url hl, ?_⟩
    simp only [decide_eq_true_eq]
    rw [hp]
    exact h10
  · intro hlt l hl hp
    rw [filtered_links, List.mem_filter]
    refine ⟨hl, ?_⟩
    simp only [decide_eq_true_eq]
    intro hmem
    rw [detect_repeated_patterns, List.mem_filter] at hmem
    have h2 := hmem.2
    simp only [decide_eq_true_eq] at h2
    rw [hp] at h2
    exact absurd h2 (Nat.not_le.mpr hlt)

/-- Witness for C1: a single about link has pattern count 1, below the
threshold, and is kept. -/
theorem c1_threshold_filtering_witness :
    Link.mk "About" "https://example.com/blog/about" ∈
      filtered_links [⟨"About", "https://example.com/blog/about"⟩] 10
        "https://example.com/blog" :=
  (c1_threshold_filtering [⟨"About", "https://example.com/blog/about"⟩]
      "https://example.com/blog" "/blog/about" (by decide)).2 (by decide)
    ⟨"About", "https://example.com/blog/about"⟩ (by decide) (by decide)

/-- Shared core of the pattern computation: testing the remainder for
emptiness before splitting (the code) agrees with splitting an empty
remainder into no segments (the spec wording). -/
theorem pattern_branch_core (rel rawpath : String) :
    (if rel ≠ "" then
       (if 2 ≤ (pySplit '/' rel).length then
          "/" ++ pyJoin '/' ((pySplit '/' rel).dropLast ++ ["*"]) ++ "/"
        else rawpath)
     else rawpath)
    = (if 2 ≤ (if rel = "" then ([] : List String) else pySplit '/' rel).length then
         "/" ++ pyJoin '/'
           ((if rel = "" then ([] : List String) else pySplit '/' rel).dropLast ++ ["*"]) ++ "/"
       else rawpath) := by
  by_cases h : rel = "" <;> simp [h]

/-- The twelve example links of the spec, resolved against the base url
https://example.com/blog. -/
def c2_example_links : List Link :=
  [⟨"p1", "https://example.com/blog/2023/post-1"⟩,
   ⟨"p2", "https://example.com/blog/2023/post-2"⟩,
   ⟨"p3", "https://example.com/blog/2023/post-3"⟩,
   ⟨"p4", "https://example.com/blog/2023/post-4"⟩,
   ⟨"p5", "https://example.com/blog/2023/post-5"⟩,
   ⟨"p6", "https://example.com/blog/2023/post-6"⟩,
   ⟨"p7", "https://example.com/blog/2023/post-7"⟩,
   ⟨"p8", "https://example.com/blog/2023/post-8"⟩,
   ⟨"p9", "https://example.com/blog/2023/post-9"⟩,
   ⟨"p10", "https://example.com/blog/2023/post-10"⟩,
   ⟨"p11", "https://example.com/blog/2023/post-11"⟩,
   ⟨"p12", "https://example.com/blog/2023/post-12"⟩]

/-- Claim C2: the code pattern computation refines the spec wording (strip
the base path as a prefix, split, wildcard the last of at least two
segments, otherwise the raw path), and on the spec example all twelve
/blog/2023/post-N links get pattern /2023/*/ and are all excluded. -/
theorem c2_pattern_rule :
    (∀ url base_url, extract_url_pattern url base_url = pattern_per_spec url base_url) ∧
    c2_example_links.map (fun l => extract_url_pattern l.url "https://example.com/blog") =
      List.replicate 12 "/2023/*/" ∧
    filtered_links c2_example_links 10 "https://example.com/blog" = [] := by
  refine ⟨fun url base_url => ?_, by rfl, by rfl⟩
  unfold extract_url_pattern pattern_per_spec
  cases hu : urlparseE url with
  | error e => rfl
  | ok pu =>
    cases hb : urlparseE base_url with
    | error e => rfl
    | ok pb =>
      exact pattern_branch_core
        (if pyStrip '/' pb.path ≠ "" ∧
            pyStartsWith (pyStrip '/' pu.path) (pyStrip '/' pb.path) = true then
           pyStrip '/' (pyDropChars (pyStrip '/' pu.path) (pyLen (pyStrip '/' pb.path)))
         else pyStrip '/' pu.path)
        pu.path

/-- Claim C10: base-path stripping is a character-prefix match, not a
segment match.  Concretely, /blogging/post-1 against base path /blog is
stripped to ging/post-1 and yields the mangled pattern /ging/*/; in
general, whenever the stripped base path is a character prefix of the
stripped link path, the pattern is computed from the character-dropped
remainder. -/
theorem c10_char_prefix_strip :
    extract_url_pattern "https://example.com/blogging/post-1" "https://example.com/blog"
      = "/ging/*/" ∧
    (∀ url base_url pu pb,
      urlparseE url = Except.ok pu →
      urlparseE base_url = Except.ok pb →
      pyStrip '/' pb.path ≠ "" →
      pyStartsWith (pyStrip '/' pu.path) (pyStrip '/' pb.path) = true →
      extract_url_pattern url base_url =
        (if pyStrip '/' (pyDropChars (pyStrip '/' pu.path) (pyLen (pyStrip '/' pb.path))) ≠ ""
         then
           (if 2 ≤ (pySplit '/'
                 (pyStrip '/' (pyDropChars (pyStrip '/' pu.path)
                   (pyLen (pyStrip '/' pb.path))))).length then
              "/" ++ pyJoin '/'
                ((pySplit '/' (pyStrip '/' (pyDropChars (pyStrip '/' pu.path)
                   (pyLen (pyStrip '/' pb.path))))).dropLast ++ ["*"]) ++ "/"
            else pu.path)
         else pu.path)) := by
  refine ⟨by rfl, fun url base_url pu pb hu hb h1 h2 => ?_⟩
  unfold extract_url_pattern
  rw [hu, hb]
  dsimp only
  rw [if_pos (And.intro h1 h2)]

/-- Witness for C10: the general character-prefix statement applied at the
concrete /blogging example reproduces the mangled pattern. -/
theorem c10_char_prefix_strip_witness :
    extract_url_pattern "https://example.com/blogging/post-12" "https://example.com/blog"
      = "/ging/*/" := by
  have h := c10_char_prefix_strip.2 "https://example.com/blogging/post-12"
    "https://example.com/blog"
    ⟨"https", "example.com", "/blogging/post-12", "", "", ""⟩
    ⟨"https", "example.com", "/blog", "", "", ""⟩ rfl rfl (by decide) (by decide)
  exact h.trans (by rfl)

/-- The merge loop accumulator splits off. -/
theorem mergeLoop_append (ls : List Link) :
    ∀ seen acc, mergeLoop seen acc ls = acc ++ mergeLoop seen [] ls := by
  induction ls with
  | nil => intro seen acc; simp [mergeLoop]
  | cons l ls ih =>
    intro seen acc
    by_cases h : l.url ∈ seen
    · simp only [mergeLoop, if_pos h]
      exact ih seen acc
    · simp only [mergeLoop, if_neg h]
      rw [ih (l.url :: seen) (acc ++ [l]), ih (l.url :: seen) ([] ++ [l])]
      simp [List.append_assoc]

/-- The merge loop keeps exactly the first occurrences whose url is not
already seen. -/
theorem mergeLoop_firstOcc (ls : List Link) :
    ∀ seen, mergeLoop seen [] ls =
      (firstOccurrences ls).filter (fun x => decide (x.url ∉ seen)) := by
  induction ls with
  | nil => intro seen; simp [mergeLoop, firstOccurrences]
  | cons l ls ih =>
    intro seen
    by_cases h : l.url ∈ seen
    · simp only [mergeLoop, if_pos h, firstOccurrences]
      rw [ih seen, List.filter_cons]
      have hd : decide (l.url ∉ seen) = false := by simp [h]
      rw [hd]
      simp only [Bool.false_eq_true, if_false]
      rw [List.filter_filter]
      apply List.filter_congr
      intro x hx
      by_cases hxl : x.url = l.url
      · simp [hxl, h]
      · simp [hxl]
    · simp only [mergeLoop, if_neg h, List.nil_append]
      rw [mergeLoop_append ls (l.url :: seen) [l], ih (l.url :: seen)]
      simp only [firstOccurrences, List.filter_cons]
      have hd : decide (l.url ∉ seen) = true := by simp [h]
      rw [hd]
      simp only [if_true, List.singleton_append]
      rw [List.filter_filter]
      congr 1
      apply List.filter_congr
      intro x hx
      by_cases h1 : x.url = l.url
      · simp [h1, List.mem_cons]
      · by_cases h2 : x.url ∈ seen <;> simp [h1, h2, List.mem_cons]

/-- The urls of the first-occurrence list are pairwise distinct. -/
theorem firstOccurrences_url_nodup (ls : List Link) :
    ((firstOccurrences ls).map Link.url).Nodup := by
  induction ls with
  | nil => simp [firstOccurrences]
  | cons l ls ih =>
    simp only [firstOccurrences, List.map_cons, List.nodup_cons]
    constructor
    · intro hmem
      obtain ⟨x, hx, hxe⟩ := List.mem_map.mp hmem
      have hne := (List.mem_filter.mp hx).2
      simp only [decide_eq_true_eq] at hne
      exact hne hxe
    · exact List.Nodup.sublist (List.Sublist.map Link.url (List.filter_sublist _)) ih

/-- Claim C3: the merged link list of extract_site_links contains no two
entries with the same absolute url, and equals the first occurrence of
each url in the concatenation header-links, footer-links, nav-links (so
first-seen relative order is preserved). -/
theorem c3_merge_dedup (header_links footer_links nav_links : List Link) :
    ((merge_links header_links footer_links nav_links).map Link.url).Nodup ∧
    merge_links header_links footer_links nav_links =
      firstOccurrences (header_links ++ footer_links ++ nav_links) := by
  have he : merge_links header_links footer_links nav_links =
      firstOccurrences (header_links ++ footer_links ++ nav_links) := by
    rw [merge_links, mergeLoop_firstOcc]
    apply List.filter_eq_self.mpr
    intro a ha
    simp
  exact ⟨he ▸ firstOccurrences_url_nodup _, he⟩

/-- Ten pairwise distinct links all carrying the raw-path pattern
/blog/about: the bare about page and nine query-string variants. -/
def c5_example_links : List Link :=
  [⟨"About", "https://example.com/blog/about"⟩,
   ⟨"v1", "https://example.com/blog/about?p=1"⟩,
   ⟨"v2", "https://example.com/blog/about?p=2"⟩,
   ⟨"v3", "https://example.com/blog/about?p=3"⟩,
   ⟨"v4", "https://example.com/blog/about?p=4"⟩,
   ⟨"v5", "https://example.com/blog/about?p=5"⟩,
   ⟨"v6", "https://example.com/blog/about?p=6"⟩,
   ⟨"v7", "https://example.com/blog/about?p=7"⟩,
   ⟨"v8", "https://example.com/blog/about?p=8"⟩,
   ⟨"v9", "https://example.com/blog/about?p=9"⟩]

/-- Claim C5, counterexample: the single-segment link /blog/about (pattern
equal to its raw path, as claimed) IS excluded from the result of a
deduplicated list in which it is never duplicated verbatim: nine distinct
query-string variants share its raw-path pattern, pushing the pattern
count to the threshold.  This refutes never excluded regardless of count
unless duplicated 10 or more times verbatim. -/
theorem c5_counterexample :
    (c5_example_links.map Link.url).Nodup ∧
    Link.mk "About" "https://example.com/blog/about" ∈ c5_example_links ∧
    extract_url_pattern "https://example.com/blog/about" "https://example.com/blog"
      = "/blog/about" ∧
    Link.mk "About" "https://example.com/blog/about" ∉
      filtered_links c5_example_links 10 "https://example.com/blog" := by
  exact ⟨by decide, by decide, rfl, by decide⟩

/-- Claim C5, amended: against base url https://example.com/blog the link
/blog/about has pattern equal to its raw path /blog/about with no
wildcarding, and it is excluded exactly when at least 10 links of the list
compute that same raw-path pattern, which distinct urls (for example
query-string variants of the same path) can reach without any verbatim
duplication. -/
theorem c5_raw_path_amended :
    extract_url_pattern "https://example.com/blog/about" "https://example.com/blog"
      = "/blog/about" ∧
    (∀ (links : List Link) (l : Link), l ∈ links →
      l.url = "https://example.com/blog/about" →
      (l ∉ filtered_links links 10 "https://example.com/blog" ↔
        10 ≤ pattern_counts links "https://example.com/blog" "/blog/about")) := by
  refine ⟨rfl, fun links l hl hurl => ?_⟩
  have hpat : extract_url_pattern l.url "https://example.com/blog" = "/blog/about" := by
    rw [hurl]
    rfl
  constructor
  · intro hnotin
    by_contra hlt
    apply hnotin
    rw [filtered_links, List.mem_filter]
    refine ⟨hl, ?_⟩
    simp only [decide_eq_true_eq]
    intro hmem
    rw [detect_repeated_patterns, List.mem_filter] at hmem
    have h2 := hmem.2
    simp only [decide_eq_true_eq] at h2
    rw [hpat] at h2
    exact hlt h2
  · intro hge hmem
    rw [filtered_links, List.mem_filter] at hmem
    have hni := hmem.2
    simp only [decide_eq_true_eq] at hni
    apply hni
    rw [detect_repeated_patterns, List.mem_filter]
    refine ⟨List.mem_map_of_mem Link.url hl, ?_⟩
    simp only [decide_eq_true_eq]
    rw [hpat]
    exact hge

/-- Witness for the amended C5 at the ten-link example list. -/
theorem c5_raw_path_amended_witness :
    Link.mk "About" "https://example.com/blog/about" ∉
      filtered_links c5_example_links 10 "https://example.com/blog" :=
  (c5_raw_path_amended.2 c5_example_links ⟨"About", "https://example.com/blog/about"⟩
    (by decide) rfl).mpr (by decide)

/-- Setting one position leaves the others unchanged. -/
theorem list_get?_set_ne {α : Type} (l : List α) (a : α) :
    ∀ i j, i ≠ j → (l.set i a).get? j = l.get? j := by
  induction l with
  | nil => intro i j _; simp
  | cons x xs ih =>
    intro i j h
    cases i with
    | zero =>
      cases j with
      | zero => exact absurd rfl h
      | succ j => simp [List.set]
    | succ i =>
      cases j with
      | zero => simp [List.set]
      | succ j => simpa [List.set] using ih i j (fun he => h (by rw [he]))

/-- Setting an in-range position stores the value there. -/
theorem list_get?_set_self {α : Type} (l : List α) (a : α) :
    ∀ i, i < l.length → (l.set i a).get? i = some a := by
  induction l with
  | nil => intro i h; simp at h
  | cons x xs ih =>
    intro i h
    cases i with
    | zero => simp [List.set]
    | succ i => simpa [List.set] using ih i (Nat.lt_of_succ_lt_succ h)

/-- Reading a mapped list. -/
theorem list_get?_map {α β : Type} (f : α → β) :
    ∀ (l : List α) (i : Nat), (l.map f).get? i = (l.get? i).map f := by
  intro l
  induction l with
  | nil => intro i; cases i <;> rfl
  | cons a as ih =>
    intro i
    cases i with
    | zero => rfl
    | succ i => simp [ih i]

/-- Reading a zip at an index where both lists are defined. -/
theorem list_get?_zip {α β : Type} :
    ∀ (as : List α) (bs : List β) (i : Nat) (a : α) (b : β),
      as.get? i = some a → bs.get? i = some b → (as.zip bs).get? i = some (a, b) := by
  intro as
  induction as with
  | nil => intro bs i a b ha _; simp at ha
  | cons x xs ih =>
    intro bs i a b ha hb
    cases bs with
    | nil => simp at hb
    | cons y ys =>
      cases i with
      | zero =>
        obtain rfl : x = a := by simpa using ha
        obtain rfl : y = b := by simpa using hb
        simp [List.zip_cons_cons]
      | succ i =>
        simpa [List.zip_cons_cons] using ih ys i a b (by simpa using ha) (by simpa using hb)

/-- getD agrees with a defined get?. -/
theorem list_getD_eq {α : Type} [Inhabited α] (l : List α) (i : Nat) (a : α)
    (h : l.get? i = some a) : l.getD i default = a := by
  have h' : l[i]? = some a := by rw [← List.get?_eq_getElem?]; exact h
  simp [List.getD, h']

/-- The write-back fold preserves the state length. -/
theorem foldl_set_length (rs : List (Nat × List String)) :
    ∀ st : List (Option (List String)),
      (rs.foldl (fun s r => s.set r.1 (some r.2)) st).length = st.length := by
  induction rs with
  | nil => intro st; rfl
  | cons r rs ih => intro st; rw [List.foldl_cons, ih, List.length_set]

/-- The write-back fold does not touch positions outside the result set. -/
theorem foldl_set_get?_nm (rs : List (Nat × List String)) :
    ∀ (st : List (Option (List String))) (j : Nat), (∀ r ∈ rs, r.1 ≠ j) →
      (rs.foldl (fun s r => s.set r.1 (some r.2)) st).get? j = st.get? j := by
  induction rs with
  | nil => intro st j _; rfl
  | cons r rs ih =>
    intro st j h
    rw [List.foldl_cons, ih _ j (fun r' h' => h r' (List.mem_cons_of_mem _ h')),
      list_get?_set_ne _ _ _ _ (h r (List.mem_cons_self _ _))]

/-- With pairwise distinct indices, the write-back fold stores each result
at its own index. -/
theorem foldl_set_get?_mem (rs : List (Nat × List String)) :
    ∀ (st : List (Option (List String))) (j : Nat) (v : List String),
      (rs.map Prod.fst).Nodup → (j, v) ∈ rs → j < st.length →
      (rs.foldl (fun s r => s.set r.1 (some r.2)) st).get? j = some (some v) := by
  induction rs with
  | nil => intro st j v _ hmem _; simp at hmem
  | cons r rs ih =>
    intro st j v hnd hmem hlen
    rw [List.map_cons] at hnd
    have hnd' := List.nodup_cons.mp hnd
    rw [List.foldl_cons]
    rcases List.mem_cons.mp hmem with he | ht
    · obtain rfl : r = (j, v) := he.symm
      have hj : ∀ r' ∈ rs, r'.1 ≠ j := by
        intro r' h' he2
        have hm : r'.1 ∈ rs.map Prod.fst := List.mem_map_of_mem Prod.fst h'
        rw [he2] at hm
        exact hnd'.1 hm
      rw [foldl_set_get?_nm rs _ j hj]
      exact list_get?_set_self _ _ j hlen
    · exact ih _ j v hnd'.2 ht (by rw [List.length_set]; exact hlen)

/-- Every index produced by the enumerate comprehension is at least the
starting counter. -/
theorem eligibleAux_le (bd : String) (ls : List Link) :
    ∀ k j, j ∈ eligibleAux bd k ls → k ≤ j := by
  induction ls with
  | nil => intro k j h; simp [eligibleAux] at h
  | cons l ls ih =>
    intro k j h
    rw [eligibleAux] at h
    by_cases hd : is_same_domain bd l.url = true
    · rw [if_pos hd] at h
      rcases List.mem_cons.mp h with he | ht
      · exact he ▸ Nat.le_refl k
      · exact Nat.le_of_succ_le (ih (k + 1) j ht)
    · rw [if_neg hd] at h
      exact Nat.le_of_succ_le (ih (k + 1) j h)

/-- Every index produced by the enumerate comprehension points at a link
that passes the same-domain test. -/
theorem eligibleAux_mem (bd : String) (ls : List Link) :
    ∀ k j, j ∈ eligibleAux bd k ls →
      ∃ l, ls.get? (j - k) = some l ∧ is_same_domain bd l.url = true := by
  induction ls with
  | nil => intro k j h; simp [eligibleAux] at h
  | cons l ls ih =>
    intro k j h
    rw [eligibleAux] at h
    by_cases hd : is_same_domain bd l.url = true
    · rw [if_pos hd] at h
      rcases List.mem_cons.mp h with he | ht
      · refine ⟨l, ?_, hd⟩
        rw [he, Nat.sub_self]
        rfl
      · obtain ⟨x, hx, hs⟩ := ih (k + 1) j ht
        have hk : k + 1 ≤ j := eligibleAux_le bd ls (k + 1) j ht
        refine ⟨x, ?_, hs⟩
        have hje : j - k = (j - (k + 1)) + 1 := by omega
        rw [hje]
        simpa using hx
    · rw [if_neg hd] at h
      obtain ⟨x, hx, hs⟩ := ih (k + 1) j h
      have hk : k + 1 ≤ j := eligibleAux_le bd ls (k + 1) j h
      refine ⟨x, ?_, hs⟩
      have hje : j - k = (j - (k + 1)) + 1 := by omega
      rw [hje]
      simpa using hx

/-- The enumerate comprehension produces strictly increasing indices. -/
theorem eligibleAux_pairwise (bd : String) (ls : List Link) :
    ∀ k, (eligibleAux bd k ls).Pairwise (· < ·) := by
  induction ls with
  | nil => intro k; simp [eligibleAux]
  | cons l ls ih =>
    intro k
    rw [eligibleAux]
    by_cases hd : is_same_domain bd l.url = true
    · rw [if_pos hd]
      refine List.Pairwise.cons ?_ (ih (k + 1))
      intro j hj
      exact Nat.lt_of_succ_le (eligibleAux_le bd ls (k + 1) j hj)
    · rw [if_neg hd]
      exact ih (k + 1)

/-- The eligible indices are pairwise distinct. -/
theorem eligible_indices_nodup (links : List Link) (bd : String) :
    (eligible_indices links bd).Nodup :=
  (List.Pairwise.sublist (List.take_sublist 20 _)
    (eligibleAux_pairwise bd links 0)).imp Nat.ne_of_lt

/-- enrich_links with its lets unfolded. -/
theorem enrich_links_eq (links : List Link) (bd : String) (oracle : String → FetchResult) :
    enrich_links links bd oracle =
      (links.zip
        (((eligible_indices links bd).map
            (fun i => (i, fetch_headings_model (oracle (links.getD i default).url)))).foldl
          (fun s r => s.set r.1 (some r.2))
          (links.map (fun _ => (none : Option (List String)))))).map
        (fun p => ⟨p.1.text, p.1.url, p.2.getD []⟩) := rfl

/-- Claim C9: the enrichment stage selects at most 20 indices, each of
which points at a link passing the same-domain test; the enriched list has
the same length as its input and the link at every index keeps its own
text and url, receiving the headings fetched for its own url when its
index is eligible and the empty list otherwise (association by index, not
by completion order); and a failed or non-200 per-url fetch yields the
empty heading list. -/
theorem c9_enrichment (links : List Link) (bd : String) (oracle : String → FetchResult) :
    (eligible_indices links bd).length ≤ 20 ∧
    (∀ i ∈ eligible_indices links bd,
      ∃ l, links.get? i = some l ∧ is_same_domain bd l.url = true) ∧
    (enrich_links links bd oracle).length = links.length ∧
    (∀ i l, links.get? i = some l →
      (enrich_links links bd oracle).get? i =
        some ⟨l.text, l.url,
          if i ∈ eligible_indices links bd
          then fetch_headings_model (oracle l.url) else []⟩) ∧
    (∀ e, fetch_headings_model (FetchResult.exn e) = []) ∧
    (∀ s p, s ≠ 200 → fetch_headings_model (FetchResult.resp s p) = []) := by
  refine ⟨?_, ?_, ?_, ?_, fun e => rfl, fun s p h => by simp [fetch_headings_model, h]⟩
  · rw [eligible_indices, List.length_take]
    exact min_le_left _ _
  · intro i hi
    obtain ⟨l, hl, hs⟩ := eligibleAux_mem bd links 0 i (List.mem_of_mem_take hi)
    rw [Nat.sub_zero] at hl
    exact ⟨l, hl, hs⟩
  · rw [enrich_links_eq, List.length_map, List.length_zip, foldl_set_length,
      List.length_map, Nat.min_self]
  · intro i l hl
    have hil : i < links.length := by
      rcases List.get?_eq_some.mp hl with ⟨h, _⟩
      exact h
    rw [enrich_links_eq, list_get?_map]
    by_cases hmem : i ∈ eligible_indices links bd
    · have hvmem : (i, fetch_headings_model (oracle (links.getD i default).url)) ∈
          (eligible_indices links bd).map
            (fun k => (k, fetch_headings_model (oracle (links.getD k default).url))) :=
        List.mem_map_of_mem _ hmem
      have hmapfst : (((eligible_indices links bd).map
            (fun k => (k, fetch_headings_model (oracle (links.getD k default).url)))).map
          Prod.fst) = eligible_indices links bd := by
        rw [List.map_map]
        exact List.map_id _
      have hnd2 : ((((eligible_indices links bd).map
            (fun k => (k, fetch_headings_model (oracle (links.getD k default).url)))).map
          Prod.fst)).Nodup := by
        rw [hmapfst]
        exact eligible_indices_nodup links bd
      have hst := foldl_set_get?_mem _ (links.map (fun _ => (none : Option (List String))))
        i _ hnd2 hvmem (by rw [List.length_map]; exact hil)
      have hzip := list_get?_zip links _ i l _ hl hst
      rw [hzip, list_getD_eq links i l hl]
      simp [if_pos hmem]
    · have hj : ∀ r ∈ (eligible_indices links bd).map
          (fun k => (k, fetch_headings_model (oracle (links.getD k default).url))), r.1 ≠ i := by
        intro r hr he
        apply hmem
        obtain ⟨k, hk, hke⟩ := List.mem_map.mp hr
        rw [← hke] at he
        exact he ▸ hk
      have hst := foldl_set_get?_nm _ (links.map (fun _ => (none : Option (List String)))) i hj
      rw [list_get?_map (fun _ => (none : Option (List String))) links i, hl] at hst
      have hzip := list_get?_zip links _ i l none hl hst
      rw [hzip]
      simp [if_neg hmem]

/-- Witness for C9 at a one-link list whose fetch raises: the enriched
link keeps its text and url and carries the empty heading list. -/
theorem c9_enrichment_witness :
    (enrich_links [⟨"t", "https://example.com/a"⟩] "example.com"
        (fun _ => FetchResult.exn "boom")).get? 0 =
      some ⟨"t", "https://example.com/a", []⟩ := by
  have h := (c9_enrichment [⟨"t", "https://example.com/a"⟩] "example.com"
    (fun _ => FetchResult.exn "boom")).2.2.2.1 0 ⟨"t", "https://example.com/a"⟩ rfl
  exact h.trans (by decide)
